import Mathlib

/-!
Verification development for the `mvcr-stat-parser` repository
(`src/parser.py`).

The Python module reads semi-structured Excel grids, locates an anchor
row containing the marker substring `STP`, walks the rows below it with a
carry-forward "current country" key, stops at a sentinel row whose first
cell contains `CELKEM`, coerces the three trailing cells of each row to
integers, merges the per-file results, derives a `"total"` category per
(country, date), and sorts each country's dates chronologically.

Modelling choices (shallow embedding):
  - a spreadsheet cell is `Cell`: absent/NaN (`Cell.empty`), a string
    (`Cell.str`), or a number (`Cell.int`; the source receives floats from
    pandas but every claim concerns integral values, so numbers are
    modelled as integers and `int(...)` truncation is the identity);
  - a grid is a `List (List Cell)`; pandas frames are rectangular, and
    out-of-range cell access is modelled by `List.getD _ Cell.empty`;
  - Python dicts are insertion-ordered association lists (`upsert` keeps
    an existing key in place and appends a new key at the end, exactly as
    CPython dict assignment does);
  - Python `int(str)` accepts surrounding whitespace and an optional
    sign; underscore digit separators are not modelled;
  - the two regular expressions of `extract_date_from_filename` are
    modelled by explicit backtracking matchers with Python `re.search`
    semantics (leftmost match, `.` does not match a newline, alternation
    prefers the left branch, `\d{1,2}` is greedy).
-/

namespace Mvcr

/-- A spreadsheet cell as seen by the parser: NaN/absent, text, or a number. -/
inductive Cell where
  | empty : Cell
  | str : String → Cell
  | int : Int → Cell
  deriving DecidableEq, Repr

/-- Models `pd.isna(cell)`. -/
def Cell.isna : Cell → Bool
  | Cell.empty => true
  | _ => false

/-- Models `pd.notna(cell)`. -/
def Cell.notna (c : Cell) : Bool := !c.isna

/-- Models Python `str(cell)`; `str` of a pandas NaN is `"nan"`. -/
def Cell.toStr : Cell → String
  | Cell.empty => "nan"
  | Cell.str s => s
  | Cell.int n => toString n

/-- A row of a grid. -/
abbrev Row := List Cell

/-- A 2-D grid of cells, as produced by `pd.read_excel(..., header=None)`. -/
abbrev Grid := List Row

/-- Tests whether the list `p` is an initial segment of `s`. -/
def startsWithL : List Char → List Char → Bool
  | _, [] => true
  | [], _ :: _ => false
  | c :: cs, p :: ps => c == p && startsWithL cs ps

/-- Tests whether `p` occurs as a contiguous run inside `s`;
this models the Python substring test `p in s`. -/
def containsL (p : List Char) : List Char → Bool
  | [] => startsWithL [] p
  | c :: cs => startsWithL (c :: cs) p || containsL p cs

/-- Python's `needle in haystack` on strings. -/
def strContainsSub (haystack needle : String) : Bool :=
  containsL needle.toList haystack.toList

/-- Python `str.upper()` (ASCII case mapping, which covers the only
uppercasing the source relies on: the all-ASCII sentinel `CELKEM`). -/
def upperStr (s : String) : String := String.mk (s.toList.map Char.toUpper)

/-- Python `str.lower()` (ASCII case mapping). -/
def lowerStr (s : String) : String := String.mk (s.toList.map Char.toLower)

/-! ### Filename date extraction (`extract_date_from_filename`) -/

/-- One character of the regex class `[-._]`. -/
def isSep (c : Char) : Bool := c == '-' || c == '.' || c == '_'

/-- The literal part `_TAB_internet_stav_k_` of pattern 1. -/
def tabLit : List Char := "_TAB_internet_stav_k_".toList

/-- Strip an expected literal from the front of the input, or fail. -/
def stripLit : List Char → List Char → Option (List Char)
  | [], l => some l
  | _ :: _, [] => none
  | c :: cs, x :: xs => if x == c then stripLit cs xs else none

/-- Models the tail `.*\.(xls|xlsx)` of pattern 1: scanning forward without
crossing a newline (regex `.` does not match `\n`), succeed as soon as the
remaining input starts with `.xls` (the alternation `(xls|xlsx)` prefers and
always succeeds on its left branch `xls`, and the pattern is unanchored). -/
def dotXlsSearch : List Char → Bool
  | [] => false
  | c :: rest =>
    if startsWithL (c :: rest) ['.', 'x', 'l', 's'] then true
    else if c == '\n' then false
    else dotXlsSearch rest

/-- Attempt pattern 1, `(\d{2})[-._](\d{4})_TAB_internet_stav_k_.*\.(xls|xlsx)`,
at the current position; on success return the captured (month, year). -/
def matchP1At : List Char → Option (String × String)
  | d1 :: d2 :: s :: y1 :: y2 :: y3 :: y4 :: rest =>
    if d1.isDigit && d2.isDigit && isSep s &&
       y1.isDigit && y2.isDigit && y3.isDigit && y4.isDigit then
      match stripLit tabLit rest with
      | some rest2 => if dotXlsSearch rest2 then
          some (String.mk [d1, d2], String.mk [y1, y2, y3, y4]) else none
      | none => none
    else none
  | _ => none

/-- Models `re.search` for pattern 1: try every start position left to right. -/
def p1Search : List Char → Option (String × String)
  | [] => none
  | c :: rest =>
    match matchP1At (c :: rest) with
    | some r => some r
    | none => p1Search rest

/-- The part `[-._](\d{4})\.(xls|xlsx)` of pattern 2 following the month
group: a separator, the 4-digit year, then a literal dot and the extension
alternation (unanchored, so `.xls` suffices and covers `.xlsx` too). -/
def p2AfterMonth (month : String) : List Char → Option (String × String)
  | s :: y1 :: y2 :: y3 :: y4 :: rest =>
    if isSep s && y1.isDigit && y2.isDigit && y3.isDigit && y4.isDigit &&
       startsWithL rest ['.', 'x', 'l', 's'] then
      some (month, String.mk [y1, y2, y3, y4])
    else none
  | _ => none

/-- The month group `(\d{1,2})` of pattern 2: greedily try two digits, then
backtrack to one. -/
def p2Month : List Char → Option (String × String)
  | m1 :: m2 :: rest =>
    if m1.isDigit && m2.isDigit then
      match p2AfterMonth (String.mk [m1, m2]) rest with
      | some r => some r
      | none => p2AfterMonth (String.mk [m1]) (m2 :: rest)
    else if m1.isDigit then p2AfterMonth (String.mk [m1]) (m2 :: rest)
    else none
  | [m1] => if m1.isDigit then p2AfterMonth (String.mk [m1]) [] else none
  | [] => none

/-- The separator between the day and month groups of pattern 2. -/
def p2AfterDay : List Char → Option (String × String)
  | s :: rest => if isSep s then p2Month rest else none
  | [] => none

/-- The uncaptured day `\d{1,2}` of pattern 2: greedy with backtracking. -/
def p2Day : List Char → Option (String × String)
  | d1 :: d2 :: rest =>
    if d1.isDigit && d2.isDigit then
      match p2AfterDay rest with
      | some r => some r
      | none => p2AfterDay (d2 :: rest)
    else if d1.isDigit then p2AfterDay (d2 :: rest)
    else none
  | [d1] => if d1.isDigit then p2AfterDay [] else none
  | [] => none

/-- The literal `STAV_K_` opening pattern 2. -/
def stavLit : List Char := "STAV_K_".toList

/-- Attempt pattern 2, `STAV_K_\d{1,2}[-._](\d{1,2})[-._](\d{4})\.(xls|xlsx)`,
at the current position. -/
def matchP2At (l : List Char) : Option (String × String) :=
  match stripLit stavLit l with
  | some rest => p2Day rest
  | none => none

/-- Models `re.search` for pattern 2. -/
def p2Search : List Char → Option (String × String)
  | [] => none
  | c :: rest =>
    match matchP2At (c :: rest) with
    | some r => some r
    | none => p2Search rest

/-- Python `str.zfill(2)` on a nonempty digit string. -/
def zfill2 (s : String) : String :=
  if s.length ≥ 2 then s else "0" ++ s

/-- Models `extract_date_from_filename`: pattern 1 wins over pattern 2;
pattern 1 yields `MM.YYYY` with groups verbatim, pattern 2 zero-pads the
month; on no match, `none`. -/
def extract_date_from_filename (filename : String) : Option String :=
  match p1Search filename.toList with
  | some r => some (r.1 ++ "." ++ r.2)
  | none =>
    match p2Search filename.toList with
    | some r => some (zfill2 r.1 ++ "." ++ r.2)
    | none => none

/-! ### Grid scanning (`find_stp_row`) -/

/-- True when a row contains a non-NaN cell whose string form contains the
substring `STP` (case-sensitive), as in
`any('STP' in str(cell) for cell in row if pd.notna(cell))`. -/
def rowHasSTP (row : Row) : Bool :=
  row.any fun c => c.notna && strContainsSub c.toStr "STP"

/-- The indexed loop of `find_stp_row`: `idx` is the index of the first row
of the remaining grid. -/
def find_stp_row_aux : Nat → Grid → Option Nat
  | _, [] => none
  | idx, row :: rest =>
    if rowHasSTP row then some (idx + 1) else find_stp_row_aux (idx + 1) rest

/-- Models `find_stp_row`: one plus the index of the first row containing an
`STP` cell, or `none`. -/
def find_stp_row (df : Grid) : Option Nat := find_stp_row_aux 0 df

/-! ### Country-name deduplication (`deduplicate_country_names`) -/

/-- Models `deduplicate_country_names`: the remap table has the single entry
`"Ruská federace" → "Rusko"`; a non-string value is its own key in no table
entry and passes through unchanged. -/
def deduplicate_country_names (country : Cell) : Cell :=
  if country = Cell.str "Ruská federace" then Cell.str "Rusko" else country

/-! ### The record-parsing loop of `parse_excel_file` -/

/-- The three integer fields of one record. -/
structure CountData where
  muzi : Int
  zeny : Int
  celkem : Int
  deriving DecidableEq, Repr

/-- A (residence-type → counts) dict for one (country, date). -/
abbrev DateData := List (String × CountData)

/-- A (date → residence data) dict for one country. -/
abbrev CountryData := List (String × DateData)

/-- The nested result dict: country → date → residence type → counts. -/
abbrev FileData := List (Cell × CountryData)

/-- First-match lookup in an insertion-ordered dict. -/
def lookupD {κ α : Type} [DecidableEq κ] (k : κ) : List (κ × α) → Option α
  | [] => none
  | p :: rest => if p.1 = k then some p.2 else lookupD k rest

/-- Python dict assignment `d[k] = v`: overwrite in place, else append. -/
def upsert {κ α : Type} [DecidableEq κ] (k : κ) (v : α) :
    List (κ × α) → List (κ × α)
  | [] => [(k, v)]
  | p :: rest => if p.1 = k then (k, v) :: rest else p :: upsert k v rest

/-- Whitespace stripped by Python `int(str)` before parsing. -/
def isSpaceChar (c : Char) : Bool :=
  c == ' ' || c == '\t' || c == '\n' || c == '\r'

/-- Strip leading and trailing whitespace. -/
def trimL (l : List Char) : List Char :=
  ((l.dropWhile isSpaceChar).reverse.dropWhile isSpaceChar).reverse

/-- Accumulate a run of decimal digits; fail on any non-digit. -/
def digitsAux (acc : Nat) : List Char → Option Nat
  | [] => some acc
  | c :: rest =>
    if c.isDigit then digitsAux (acc * 10 + (c.toNat - 48)) rest else none

/-- Python `int(str)`: optional surrounding whitespace, optional sign, then
one or more decimal digits; anything else raises `ValueError` (`none`).
Underscore digit separators are not modelled. -/
def pyIntOfChars (l : List Char) : Option Int :=
  match trimL l with
  | [] => none
  | '+' :: rest =>
    if rest = [] then none else (digitsAux 0 rest).map Int.ofNat
  | '-' :: rest =>
    if rest = [] then none else (digitsAux 0 rest).map fun n => -(n : Int)
  | l2 => (digitsAux 0 l2).map Int.ofNat

/-- Models `int(0 if pd.isna(v) else v)`: `some` the integer, or `none` for
the `ValueError` raised on non-numeric text. -/
def cellToInt : Cell → Option Int
  | Cell.empty => some 0
  | Cell.int n => some n
  | Cell.str s => pyIntOfChars s.toList

/-- Cell access `row_values[j]` (out of range only for degenerate grids;
pandas frames are rectangular). -/
def cellAt (row : Row) (j : Nat) : Cell := row.getD j Cell.empty

/-- Width of the pandas frame (frames are rectangular). -/
def width (df : Grid) : Nat := (df.headD []).length

/-- The column positions kept by `columns[:2] + columns[-3:]`. -/
def selectedIdx (n : Nat) : List Nat :=
  (List.range n).take 2 ++ (List.range n).drop (n - 3)

/-- Restrict a row to the selected columns. -/
def selectRow (n : Nat) (row : Row) : Row :=
  (selectedIdx n).map (cellAt row)

/-- The sentinel test
`pd.notna(row[0]) and "CELKEM" in str(row[0]).upper()`. -/
def isStopRow (rv : Row) : Bool :=
  let c0 := cellAt rv 0
  c0.notna && strContainsSub (upperStr c0.toStr) "CELKEM"

/-- The carry-forward update: a non-NaN first cell replaces the current
country (after the synonym remap); a NaN first cell keeps it. -/
def stepGroup (cc : Option Cell) (rv : Row) : Option Cell :=
  let c0 := cellAt rv 0
  if c0.isna then cc else some (deduplicate_country_names c0)

/-- Dict initialisation and insertion for one emitted record, modelling the
`file_data[...]` block of `parse_excel_file`. -/
def insertRecord (fd : FileData) (country : Cell) (date rt : String)
    (cd : CountData) : FileData :=
  let cdata : CountryData :=
    match lookupD country fd with
    | none => [(date, ([] : DateData))]
    | some m =>
      match lookupD date m with
      | none => upsert date ([] : DateData) m
      | some _ => m
  let ddata : DateData := (lookupD date cdata).getD []
  upsert country (upsert date (upsert rt cd ddata) cdata) fd

/-- Attempt to emit a record for one row once a current country `g` is
established: skip if the category cell is NaN, otherwise coerce the three
trailing cells; a coercion failure skips the row (the caught `ValueError`). -/
def processRow (date : String) (g : Cell) (rv : Row) (fd : FileData) :
    FileData :=
  let c1 := cellAt rv 1
  if c1.isna then fd
  else
    match cellToInt (cellAt rv 2), cellToInt (cellAt rv 3),
        cellToInt (cellAt rv 4) with
    | some m, some z, some ce =>
      insertRecord fd g date (lowerStr c1.toStr) ⟨m, z, ce⟩
    | _, _, _ => fd

/-- One loop iteration after the sentinel check: update the carry-forward
country, then either skip (no country yet) or try to emit. -/
def emitStep (date : String) (cc : Option Cell) (rv : Row) (fd : FileData) :
    FileData :=
  match stepGroup cc rv with
  | none => fd
  | some g => processRow date g rv fd

/-- The `for _, row in data.iterrows()` loop of `parse_excel_file`:
stop at the first sentinel row, otherwise fold `emitStep` over the rows. -/
def parseRows (date : String) : List Row → Option Cell → FileData → FileData
  | [], _, fd => fd
  | rv :: rest, cc, fd =>
    if isStopRow rv then fd
    else parseRows date rest (stepGroup cc rv) (emitStep date cc rv fd)

/-- The carry-forward country after a list of rows has been traversed. -/
def updGroup (cc : Option Cell) (rows : List Row) : Option Cell :=
  rows.foldl stepGroup cc

/-- The group cell of a row: its first cell when non-NaN. -/
def groupCell (rv : Row) : Option Cell :=
  let c0 := cellAt rv 0
  if c0.isna then none else some c0

/-- Models `parse_excel_file` from the in-memory grid (filename date
extraction and the Excel read are external collaborators): locate the
anchor, drop everything up to and including `stp_row + 1`, select columns,
and run the row loop. -/
def parse_excel_file (date : String) (df : Grid) : FileData :=
  match find_stp_row df with
  | none => []
  | some stp_row =>
    parseRows date ((df.drop (stp_row + 1)).map (selectRow (width df))) none []

/-! ### Aggregation (`calculate_totals`) and merging -/

/-- Field-wise sum of all records in a residence-type dict. -/
def sumCounts (dd : DateData) : CountData :=
  dd.foldl (fun acc p =>
    ⟨acc.muzi + p.2.muzi, acc.zeny + p.2.zeny, acc.celkem + p.2.celkem⟩)
    ⟨0, 0, 0⟩

/-- Field-wise sum over the categories other than `"total"`. -/
def nonTotalSum (dd : DateData) : CountData :=
  sumCounts (dd.filter fun p => !(p.1 == "total"))

/-- The per-(country, date) body of `calculate_totals`: skip when a
`"total"` key is already present, otherwise append the computed sums
under `"total"`. -/
def calcDateData (dd : DateData) : DateData :=
  if (lookupD "total" dd).isSome then dd
  else upsert "total" (sumCounts dd) dd

/-- Models `calculate_totals` (it mutates every country/date entry of its
argument in place and returns it). -/
def calculate_totals (pd : FileData) : FileData :=
  pd.map fun ccd => (ccd.1, ccd.2.map fun dcd => (dcd.1, calcDateData dcd.2))

/-- Python `base.update(upd)` on a residence-type dict. -/
def dictUpdate (base upd : DateData) : DateData :=
  upd.foldl (fun b p => upsert p.1 p.2 b) base

/-- The merge step of `main`: fold one file's data into the accumulating
dataset (`defaultdict` country touch, per-date dict creation, `update`). -/
def mergeFile (acc : FileData) (fd : FileData) : FileData :=
  fd.foldl (fun acc1 ccd =>
    ccd.2.foldl (fun acc2 dcd =>
      let cur : CountryData := (lookupD ccd.1 acc2).getD []
      let curD : DateData := (lookupD dcd.1 cur).getD []
      upsert ccd.1 (upsert dcd.1 (dictUpdate curD dcd.2) cur) acc2) acc1) acc

/-! ### Date sorting (`main`) -/

/-- Python `str.split('.')`. -/
def splitDot : List Char → List (List Char)
  | [] => [[]]
  | c :: rest =>
    if c == '.' then [] :: splitDot rest
    else
      match splitDot rest with
      | [] => [[c]]
      | h :: t => (c :: h) :: t

/-- The sort key `(int(x.split('.')[1]), int(x.split('.')[0]))` for a
`MM.YYYY` period label (on a label where Python's `int` would raise, the
source crashes; such labels cannot reach the sort, and the model returns
the harmless key component 0 there). -/
def dateKey (s : String) : Int × Int :=
  match splitDot s.toList with
  | m :: y :: _ => ((pyIntOfChars y).getD 0, (pyIntOfChars m).getD 0)
  | _ => (0, 0)

/-- Lexicographic (code-point) order on strings, Python's `<`; used only to
contrast with the chronological order. -/
def lexLtL : List Char → List Char → Bool
  | [], [] => false
  | [], _ :: _ => true
  | _ :: _, [] => false
  | a :: as, b :: bs =>
    if a < b then true else if b < a then false else lexLtL as bs

/-- Ascending comparison of period labels by their `(year, month)` key
(lexicographic on the pair, as Python tuple comparison). -/
def dateLe (a b : String) : Bool :=
  let ka := dateKey a
  let kb := dateKey b
  decide (ka.1 < kb.1) || (decide (ka.1 = kb.1) && decide (ka.2 ≤ kb.2))

/-- Sort one country's dict by chronological date, rebuilding the dict in
sorted key order as the comprehension in `main` does. -/
def sortCountryData (cd : CountryData) : CountryData :=
  ((cd.map Prod.fst).mergeSort dateLe).filterMap fun d =>
    (lookupD d cd).map fun v => (d, v)

/-- The date-sorting pass of `main` over the whole dataset. -/
def sortData (pd : FileData) : FileData :=
  pd.map fun ccd => (ccd.1, sortCountryData ccd.2)

/-! ### Concrete example data -/

/-- A grid whose anchor row (index 0) is immediately followed by a
populated data row (index 1) and another at index 2. -/
def gridA : Grid :=
  [[Cell.str "STP_x", Cell.str "a", Cell.int 0, Cell.int 0, Cell.int 0],
   [Cell.str "Polsko", Cell.str "trvalý", Cell.int 1, Cell.int 2, Cell.int 3],
   [Cell.str "Rusko", Cell.str "x", Cell.int 4, Cell.int 5, Cell.int 6]]

/-- A grid one of whose data rows carries the literal category `Total`,
which the parser lowercases into the reserved key `"total"`. -/
def gridB : Grid :=
  [[Cell.str "STP_celkem", Cell.empty, Cell.empty, Cell.empty, Cell.empty],
   [Cell.empty, Cell.empty, Cell.empty, Cell.empty, Cell.empty],
   [Cell.str "Polsko", Cell.str "trvalý", Cell.int 1, Cell.int 2, Cell.int 3],
   [Cell.empty, Cell.str "Total", Cell.int 9, Cell.int 9, Cell.int 9],
   [Cell.str "CELKEM", Cell.str "z", Cell.int 7, Cell.int 7, Cell.int 7]]

/-- The merged dataset the aggregator receives for the single file
`gridB`. -/
def aggInputB : FileData := mergeFile [] (parse_excel_file "01.2021" gridB)

/-- The (Polsko, 01.2021) entry after aggregation of `aggInputB`. -/
def ddB : DateData :=
  (lookupD "01.2021"
    ((lookupD (Cell.str "Polsko") (calculate_totals aggInputB)).getD [])).getD []

/-- A dataset already carrying a `"total"` category. -/
def pdTot : FileData :=
  [(Cell.str "Rusko",
    [("01.2021", [("trvalý", ⟨1, 2, 3⟩), ("total", ⟨1, 2, 3⟩)])])]

/-- A grid whose row 3 (0-based) holds an `STP_celkem` marker cell. -/
def gridS : Grid :=
  [[Cell.str "a", Cell.empty], [Cell.empty, Cell.empty],
   [Cell.str "b", Cell.int 1], [Cell.int 2, Cell.str "xx STP_celkem yy"],
   [Cell.str "c", Cell.empty]]

/-- A data row naming the group `Polsko`. -/
def rowPolsko : Row :=
  [Cell.str "Polsko", Cell.str "trvalý", Cell.int 1, Cell.int 2, Cell.int 3]

/-- A data row with an empty group cell. -/
def rowNoGroup : Row :=
  [Cell.empty, Cell.str "přechodný", Cell.int 4, Cell.int 5, Cell.int 6]

/-- A row whose third cell is non-numeric text. -/
def rowBadCount : Row :=
  [Cell.str "Polsko", Cell.str "trvalý", Cell.str "abc", Cell.int 1, Cell.int 2]

/-- A country dict with periods deliberately out of chronological order. -/
def cdW0 : CountryData :=
  [("09.2020", [("total", ⟨1, 1, 2⟩)]),
   ("10.2019", [("total", ⟨3, 3, 6⟩)]),
   ("01.2020", [("total", ⟨2, 2, 4⟩)])]

/-- A dataset wrapping `cdW0`. -/
def pdW : FileData := [(Cell.str "Rusko", cdW0)]

/-! ### Dictionary lemmas -/

theorem lookupD_map_snd {κ α β : Type} [DecidableEq κ] (f : α → β) (k : κ) :
    ∀ l : List (κ × α),
      lookupD k (l.map fun p => (p.1, f p.2)) = (lookupD k l).map f
  | [] => rfl
  | p :: rest => by
    by_cases h : p.1 = k
    · simp [lookupD, h]
    · simp [lookupD, h, lookupD_map_snd f k rest]

theorem lookupD_upsert_self {κ α : Type} [DecidableEq κ] (k : κ) (v : α) :
    ∀ l : List (κ × α), lookupD k (upsert k v l) = some v
  | [] => by simp [upsert, lookupD]
  | p :: rest => by
    by_cases h : p.1 = k
    · simp [upsert, h, lookupD]
    · simp [upsert, h, lookupD, lookupD_upsert_self k v rest]

theorem upsert_of_lookupD_none {κ α : Type} [DecidableEq κ] (k : κ) (v : α) :
    ∀ l : List (κ × α), lookupD k l = none → upsert k v l = l ++ [(k, v)]
  | [], _ => rfl
  | p :: rest, h => by
    by_cases hp : p.1 = k
    · simp [lookupD, hp] at h
    · simp only [lookupD, if_neg hp] at h
      simp [upsert, hp, upsert_of_lookupD_none k v rest h]

theorem lookupD_append_of_none {κ α : Type} [DecidableEq κ] (k : κ)
    (l2 : List (κ × α)) :
    ∀ l : List (κ × α), lookupD k l = none → lookupD k (l ++ l2) = lookupD k l2
  | [], _ => rfl
  | p :: rest, h => by
    by_cases hp : p.1 = k
    · simp [lookupD, hp] at h
    · simp only [lookupD, if_neg hp] at h
      simp [lookupD, hp, lookupD_append_of_none k l2 rest h]

theorem filter_ne_of_lookupD_none {α : Type} (k : String) :
    ∀ l : List (String × α), lookupD k l = none →
      (l.filter fun p => !(p.1 == k)) = l
  | [], _ => rfl
  | p :: rest, h => by
    by_cases hp : p.1 = k
    · simp [lookupD, hp] at h
    · simp only [lookupD, if_neg hp] at h
      simp [List.filter_cons, beq_iff_eq, hp, filter_ne_of_lookupD_none k rest h]

/-! ### Aggregation lemmas -/

theorem calcDateData_of_total (dd : DateData)
    (h : (lookupD "total" dd).isSome = true) : calcDateData dd = dd := by
  simp [calcDateData, h]

theorem calcDateData_total_isSome (dd : DateData) :
    (lookupD "total" (calcDateData dd)).isSome = true := by
  by_cases h : (lookupD "total" dd).isSome = true
  · simp [calcDateData, h]
  · simp [calcDateData, h, lookupD_upsert_self]

theorem calcDateData_idem (dd : DateData) :
    calcDateData (calcDateData dd) = calcDateData dd :=
  calcDateData_of_total _ (calcDateData_total_isSome dd)

theorem lookupD_calculate_totals (c : Cell) :
    ∀ pd : FileData,
      lookupD c (calculate_totals pd) =
        (lookupD c pd).map fun cd => cd.map fun dcd => (dcd.1, calcDateData dcd.2)
  | [] => rfl
  | ccd :: rest => by
    by_cases h : ccd.1 = c
    · simp [calculate_totals, lookupD, h]
    · simpa [calculate_totals, lookupD, h] using lookupD_calculate_totals c rest

theorem calculate_totals_idem_eq (pd : FileData) :
    calculate_totals (calculate_totals pd) = calculate_totals pd := by
  unfold calculate_totals
  rw [List.map_map]
  apply List.map_congr_left
  intro ccd _
  simp only [Function.comp_apply, List.map_map]
  congr 1
  apply List.map_congr_left
  intro dcd _
  simp [calcDateData_idem]

/-! ### Claims about aggregation -/

/-- Claim C2 (counterexample): the aggregation invariant does not hold for
every dataset the aggregator may receive. For the reachable dataset built
from `gridB` — whose input carries a category cell `Total`, lowercased by
the parser into the reserved key `"total"` — `calculate_totals` leaves the
pre-existing `"total"` record `(9,9,9)` in place, which differs from the
sum `(1,2,3)` of the non-`"total"` categories. -/
theorem calculate_totals_invariant_cex :
    lookupD "total" ddB = some ⟨9, 9, 9⟩ ∧
    nonTotalSum ddB = ⟨1, 2, 3⟩ ∧
    lookupD "total" ddB ≠ some (nonTotalSum ddB) := by decide

/-- Claim C2 (amended): after `calculate_totals` runs, for every
(group, period) pair whose entry did not already contain a `"total"`
category, the `"total"` category's fields equal the elementwise sum of the
fields over all non-`"total"` categories present at that (group, period);
entries that already contained a `"total"` (possible, since the parser can
source one from an input row labelled `Total`) are left unchanged and need
not satisfy the equation. -/
theorem calculate_totals_sums_missing (pd : FileData) (c : Cell)
    (cd : CountryData) (d : String) (dd : DateData)
    (h1 : lookupD c pd = some cd) (h2 : lookupD d cd = some dd)
    (h3 : lookupD "total" dd = none) :
    ∃ cd2 dd2, lookupD c (calculate_totals pd) = some cd2 ∧
      lookupD d cd2 = some dd2 ∧
      lookupD "total" dd2 = some (nonTotalSum dd2) := by
  refine ⟨cd.map fun dcd => (dcd.1, calcDateData dcd.2), calcDateData dd,
    ?_, ?_, ?_⟩
  · rw [lookupD_calculate_totals, h1]; rfl
  · rw [lookupD_map_snd, h2]; rfl
  · have hupd : calcDateData dd = dd ++ [("total", sumCounts dd)] := by
      have hns : (lookupD "total" dd).isSome = false := by rw [h3]; rfl
      simp [calcDateData, hns, upsert_of_lookupD_none _ _ dd h3]
    have hnts : nonTotalSum (dd ++ [("total", sumCounts dd)]) = sumCounts dd := by
      unfold nonTotalSum
      rw [List.filter_append, filter_ne_of_lookupD_none "total" dd h3]
      simp
    rw [hupd, hnts, lookupD_append_of_none _ _ dd h3]
    simp [lookupD]

/-- Claim C2 (amended, witness): concrete instance for the `(Polsko, 01.2021)`
entry of a dataset without a pre-existing `"total"`. -/
theorem calculate_totals_sums_missing_witness :
    ∃ cd2 dd2,
      lookupD (Cell.str "Polsko")
        (calculate_totals
          [(Cell.str "Polsko", [("01.2021", [("trvalý", ⟨1, 2, 3⟩)])])]) =
        some cd2 ∧
      lookupD "01.2021" cd2 = some dd2 ∧
      lookupD "total" dd2 = some (nonTotalSum dd2) :=
  calculate_totals_sums_missing
    [(Cell.str "Polsko", [("01.2021", [("trvalý", ⟨1, 2, 3⟩)])])]
    (Cell.str "Polsko") [("01.2021", [("trvalý", ⟨1, 2, 3⟩)])]
    "01.2021" [("trvalý", ⟨1, 2, 3⟩)] (by decide) (by decide) (by decide)

/-- Claim C7: `calculate_totals` is idempotent — applying it twice equals
applying it once — and any (group, period) entry that already contains a
`"total"` category is left completely unchanged. -/
theorem calculate_totals_idempotent (pd : FileData) :
    calculate_totals (calculate_totals pd) = calculate_totals pd ∧
    (∀ (c : Cell) (cd : CountryData) (d : String) (dd : DateData),
      lookupD c pd = some cd → lookupD d cd = some dd →
      (lookupD "total" dd).isSome = true →
      ∃ cd2, lookupD c (calculate_totals pd) = some cd2 ∧
        lookupD d cd2 = some dd) := by
  refine ⟨calculate_totals_idem_eq pd, ?_⟩
  intro c cd d dd h1 h2 h3
  refine ⟨cd.map fun dcd => (dcd.1, calcDateData dcd.2), ?_, ?_⟩
  · rw [lookupD_calculate_totals, h1]; rfl
  · rw [lookupD_map_snd, h2]
    simp [calcDateData_of_total dd h3]

/-- Claim C7 (witness): idempotence at the concrete dataset `pdTot`, which
already carries a `"total"` category. -/
theorem calculate_totals_idempotent_witness :
    calculate_totals (calculate_totals pdTot) = calculate_totals pdTot ∧
    ∃ cd2, lookupD (Cell.str "Rusko") (calculate_totals pdTot) = some cd2 ∧
      lookupD "01.2021" cd2 =
        some [("trvalý", ⟨1, 2, 3⟩), ("total", ⟨1, 2, 3⟩)] := by
  have h := calculate_totals_idempotent pdTot
  exact ⟨h.1, h.2 (Cell.str "Rusko")
    [("01.2021", [("trvalý", ⟨1, 2, 3⟩), ("total", ⟨1, 2, 3⟩)])]
    "01.2021" [("trvalý", ⟨1, 2, 3⟩), ("total", ⟨1, 2, 3⟩)]
    (by decide) (by decide) (by decide)⟩

/-! ### Row-loop lemmas -/

theorem parseRows_takeWhile (date : String) :
    ∀ (rows : List Row) (cc : Option Cell) (fd : FileData),
      parseRows date rows cc fd =
        parseRows date (rows.takeWhile fun rv => !isStopRow rv) cc fd
  | [], _, _ => rfl
  | rv :: rest, cc, fd => by
    by_cases h : isStopRow rv = true
    · simp [parseRows, h, List.takeWhile_cons]
    · simp only [Bool.not_eq_true] at h
      simp [parseRows, h, List.takeWhile_cons,
        parseRows_takeWhile date rest (stepGroup cc rv) (emitStep date cc rv fd)]

theorem parseRows_append (date : String) :
    ∀ (pre rest2 : List Row) (cc : Option Cell) (fd : FileData),
      (∀ r ∈ pre, isStopRow r = false) →
      parseRows date (pre ++ rest2) cc fd =
        parseRows date rest2 (updGroup cc pre) (parseRows date pre cc fd)
  | [], rest2, cc, fd, _ => by simp [parseRows, updGroup]
  | rv :: pre, rest2, cc, fd, h => by
    have h0 : isStopRow rv = false := h rv (List.mem_cons_self rv pre)
    have hrec := parseRows_append date pre rest2 (stepGroup cc rv)
      (emitStep date cc rv fd) (fun r hr => h r (List.mem_cons_of_mem rv hr))
    have hstep1 : parseRows date ((rv :: pre) ++ rest2) cc fd =
        parseRows date (pre ++ rest2) (stepGroup cc rv)
          (emitStep date cc rv fd) := by
      simp [parseRows, h0]
    have hstep2 : parseRows date (rv :: pre) cc fd =
        parseRows date pre (stepGroup cc rv) (emitStep date cc rv fd) := by
      simp [parseRows, h0]
    have hupd : updGroup cc (rv :: pre) = updGroup (stepGroup cc rv) pre := by
      simp [updGroup, List.foldl_cons]
    rw [hstep1, hrec, hstep2, hupd]

theorem updGroup_isSome (g : Cell) :
    ∀ rows : List Row, (updGroup (some g) rows).isSome = true
  | [] => rfl
  | rv :: rest => by
    by_cases h : (cellAt rv 0).isna = true
    · simpa [updGroup, List.foldl_cons, stepGroup, h]
        using updGroup_isSome g rest
    · simpa [updGroup, List.foldl_cons, stepGroup, h]
        using updGroup_isSome
          (deduplicate_country_names (cellAt rv 0)) rest

theorem parseRows_no_group (date : String) :
    ∀ (rows : List Row) (fd : FileData),
      (∀ r ∈ rows, isStopRow r = false) →
      updGroup none rows = none →
      parseRows date rows none fd = fd
  | [], _, _, _ => rfl
  | rv :: rest, fd, h, hg => by
    have h0 : isStopRow rv = false := h rv (List.mem_cons_self rv rest)
    have hstep : stepGroup none rv = none := by
      by_cases hna : (cellAt rv 0).isna = true
      · simp [stepGroup, hna]
      · exfalso
        have h1 : updGroup none (rv :: rest) =
            updGroup (some (deduplicate_country_names (cellAt rv 0)))
              rest := by
          simp [updGroup, List.foldl_cons, stepGroup, hna]
        rw [h1] at hg
        have h2 := updGroup_isSome
          (deduplicate_country_names (cellAt rv 0)) rest
        rw [hg] at h2
        exact Bool.false_ne_true h2
    have hemit : emitStep date none rv fd = fd := by simp [emitStep, hstep]
    have hg2 : updGroup none rest = none := by
      have : updGroup none (rv :: rest) = updGroup none rest := by
        simp [updGroup, List.foldl_cons, hstep]
      rwa [this] at hg
    simp only [parseRows, h0, Bool.false_eq_true, if_false, hstep, hemit]
    exact parseRows_no_group date rest fd
      (fun r hr => h r (List.mem_cons_of_mem rv hr)) hg2

theorem updGroup_getLast :
    ∀ (rows : List Row) (cc : Option Cell),
      updGroup cc rows =
        match (rows.filterMap groupCell).getLast? with
        | none => cc
        | some c => some (deduplicate_country_names c)
  | [], _ => rfl
  | rv :: rest, cc => by
    by_cases hna : (cellAt rv 0).isna = true
    · have hgc : groupCell rv = none := by simp [groupCell, hna]
      have hstep : stepGroup cc rv = cc := by simp [stepGroup, hna]
      simp only [updGroup, List.foldl_cons, hstep, List.filterMap_cons, hgc]
      exact updGroup_getLast rest cc
    · have hgc : groupCell rv = some (cellAt rv 0) := by
        simp [groupCell, hna]
      have hstep : stepGroup cc rv =
          some (deduplicate_country_names (cellAt rv 0)) := by
        simp [stepGroup, hna]
      have hrec := updGroup_getLast rest
        (some (deduplicate_country_names (cellAt rv 0)))
      simp only [updGroup, List.foldl_cons, hstep, List.filterMap_cons, hgc,
        List.getLast?_cons]
      cases hL : (rest.filterMap groupCell).getLast? with
      | none =>
        simp only [hL] at hrec
        simpa [hL] using hrec
      | some c =>
        simp only [hL] at hrec
        simpa [hL] using hrec

/-! ### Claims about the row loop -/

/-- Claim C3: iteration over the post-anchor rows stops at the first sentinel
row (first cell non-NaN and containing `CELKEM` once uppercased) without
processing it: the loop's result only depends on the rows strictly before
that sentinel, for every carry-forward state and accumulator, and hence no
emitted record originates from a row at or after it; the same holds for the
whole per-grid parse. -/
theorem parse_stops_at_sentinel (date : String) (rows : List Row)
    (cc : Option Cell) (fd : FileData) (df : Grid) :
    parseRows date rows cc fd =
      parseRows date (rows.takeWhile fun rv => !isStopRow rv) cc fd ∧
    parse_excel_file date df =
      (match find_stp_row df with
       | none => []
       | some s =>
         parseRows date
           (((df.drop (s + 1)).map (selectRow (width df))).takeWhile
             fun rv => !isStopRow rv) none []) := by
  refine ⟨parseRows_takeWhile date rows cc fd, ?_⟩
  unfold parse_excel_file
  cases find_stp_row df with
  | none => rfl
  | some s => exact parseRows_takeWhile date _ none []

/-- Claim C4: carry-forward of the group key. Before any non-empty group cell
appears, rows emit no record; a row with an empty group cell is processed
with the group equal to the most recent preceding non-empty group cell
passed through the synonym remap; and a non-empty group cell updates the
current group to its remapped value. -/
theorem group_carry_forward (date : String) (pre : List Row) (rv : Row)
    (fd : FileData)
    (hpre : ∀ r ∈ pre, isStopRow r = false)
    (hstop : isStopRow rv = false)
    (hempty : (cellAt rv 0).isna = true) :
    (updGroup none pre = none →
      parseRows date (pre ++ [rv]) none fd = fd) ∧
    (∀ g, updGroup none pre = some g →
      parseRows date (pre ++ [rv]) none fd =
        processRow date g rv (parseRows date pre none fd)) ∧
    updGroup none pre =
      ((pre.filterMap groupCell).getLast?).map deduplicate_country_names ∧
    (∀ (cc : Option Cell) (r : Row), (cellAt r 0).isna = false →
      stepGroup cc r =
        some (deduplicate_country_names (cellAt r 0))) := by
  refine ⟨?_, ?_, ?_, ?_⟩
  · intro hg
    rw [parseRows_append date pre [rv] none fd hpre, hg,
      parseRows_no_group date pre fd hpre hg]
    have hstep : stepGroup none rv = none := by simp [stepGroup, hempty]
    simp [parseRows, hstop, hstep, emitStep]
  · intro g hg
    rw [parseRows_append date pre [rv] none fd hpre, hg]
    have hstep : stepGroup (some g) rv = some g := by simp [stepGroup, hempty]
    simp [parseRows, hstop, hstep, emitStep]
  · rw [updGroup_getLast pre none]
    cases (pre.filterMap groupCell).getLast? <;> rfl
  · intro cc r hr
    simp [stepGroup, hr]

/-- Claim C4 (witness): after a `Polsko` row, a row with an empty group cell
is processed with group `Polsko`. -/
theorem group_carry_forward_witness :
    parseRows "01.2021" [rowPolsko, rowNoGroup] none [] =
      processRow "01.2021" (Cell.str "Polsko") rowNoGroup
        (parseRows "01.2021" [rowPolsko] none []) := by
  have h := group_carry_forward "01.2021" [rowPolsko] rowNoGroup []
    (by decide) (by decide) (by decide)
  exact h.2.1 (Cell.str "Polsko") (by decide)

/-- Claim C9: a row whose numeric cells fail integer coercion is skipped in
its entirety — the accumulated data is unchanged — while the carry-forward
group is still updated and all remaining rows are processed normally; an
empty or missing cell coerces to zero and a numeric cell to its value, so
coercion failure never aborts the parse. -/
theorem coercion_failure_skips_row (date : String) (rv : Row)
    (rest : List Row) (cc : Option Cell) (fd : FileData)
    (hstop : isStopRow rv = false)
    (hfail : cellToInt (cellAt rv 2) = none ∨
             cellToInt (cellAt rv 3) = none ∨
             cellToInt (cellAt rv 4) = none) :
    parseRows date (rv :: rest) cc fd =
      parseRows date rest (stepGroup cc rv) fd ∧
    cellToInt Cell.empty = some 0 ∧
    (∀ n : Int, cellToInt (Cell.int n) = some n) := by
  refine ⟨?_, rfl, fun n => rfl⟩
  have hemit : emitStep date cc rv fd = fd := by
    cases hg : stepGroup cc rv with
    | none => simp [emitStep, hg]
    | some g =>
      simp only [emitStep, hg, processRow]
      by_cases h1 : (cellAt rv 1).isna = true
      · simp [h1]
      · simp only [h1, Bool.false_eq_true, if_false]
        rcases h2 : cellToInt (cellAt rv 2) with _ | m
        · rfl
        · rcases h3 : cellToInt (cellAt rv 3) with _ | z
          · rfl
          · rcases h4 : cellToInt (cellAt rv 4) with _ | ce
            · rfl
            · rcases hfail with hf | hf | hf <;> simp_all
  simp [parseRows, hstop, hemit]

/-- Claim C9 (witness): a concrete row whose third cell holds `abc` is
skipped while the following row is still processed. -/
theorem coercion_failure_skips_row_witness :
    parseRows "01.2021" [rowBadCount, rowNoGroup] none [] =
      parseRows "01.2021" [rowNoGroup] (stepGroup none rowBadCount) [] := by
  have h := coercion_failure_skips_row "01.2021" rowBadCount [rowNoGroup]
    none [] (by decide) (Or.inl (by decide))
  exact h.1

/-! ### Substring lemmas -/

theorem startsWithL_iff :
    ∀ s p : List Char, startsWithL s p = true ↔ ∃ t, s = p ++ t
  | s, [] => by simp [startsWithL]
  | [], q :: ps => by simp [startsWithL]
  | c :: cs, q :: ps => by
    simp only [startsWithL, Bool.and_eq_true, beq_iff_eq]
    constructor
    · rintro ⟨rfl, h⟩
      obtain ⟨t, rfl⟩ := (startsWithL_iff cs ps).mp h
      exact ⟨t, rfl⟩
    · rintro ⟨t, ht⟩
      injection ht with h1 h2
      exact ⟨h1, (startsWithL_iff cs ps).mpr ⟨t, h2⟩⟩

theorem containsL_iff (p : List Char) :
    ∀ s : List Char, containsL p s = true ↔ ∃ u v, s = u ++ p ++ v
  | [] => by
    rw [show containsL p [] = startsWithL [] p from rfl, startsWithL_iff]
    constructor
    · rintro ⟨t, ht⟩
      have h := List.append_eq_nil.mp ht.symm
      exact ⟨[], [], by simp [h.1, h.2]⟩
    · rintro ⟨u, v, huv⟩
      have h2 := List.append_eq_nil.mp huv.symm
      have h3 := List.append_eq_nil.mp h2.1
      exact ⟨[], by simp [h3.2]⟩
  | c :: cs => by
    rw [show containsL p (c :: cs) =
      (startsWithL (c :: cs) p || containsL p cs) from rfl]
    simp only [Bool.or_eq_true, startsWithL_iff, containsL_iff p cs]
    constructor
    · rintro (⟨t, ht⟩ | ⟨u, v, huv⟩)
      · exact ⟨[], t, by simpa using ht⟩
      · exact ⟨c :: u, v, by simp [huv]⟩
    · rintro ⟨u, v, huv⟩
      cases u with
      | nil => exact Or.inl ⟨v, by simpa using huv⟩
      | cons x xs =>
        injection huv with h1 h2
        exact Or.inr ⟨xs, v, h2⟩

theorem strContainsSub_iff (hay needle : String) :
    strContainsSub hay needle = true ↔
      ∃ u v, hay.toList = u ++ needle.toList ++ v :=
  containsL_iff needle.toList hay.toList

/-! ### Grid-scanner lemmas -/

theorem find_stp_row_aux_eq :
    ∀ (df : Grid) (n : Nat),
      find_stp_row_aux n df =
        if df.any rowHasSTP then some (n + df.findIdx rowHasSTP + 1) else none
  | [], _ => rfl
  | row :: rest, n => by
    by_cases h : rowHasSTP row = true
    · simp [find_stp_row_aux, h, List.findIdx_cons]
    · have hrec := find_stp_row_aux_eq rest (n + 1)
      simp only [find_stp_row_aux, h, Bool.false_eq_true, if_false,
        List.any_cons, List.findIdx_cons, Bool.false_or, cond_false]
      rw [hrec]
      by_cases ha : rest.any rowHasSTP = true
      · simp only [ha, if_true]
        congr 1
        omega
      · simp [ha]

theorem find_stp_row_eq (df : Grid) :
    find_stp_row df =
      if df.any rowHasSTP then some (df.findIdx rowHasSTP + 1) else none := by
  have h := find_stp_row_aux_eq df 0
  simpa [find_stp_row] using h

theorem any_findIdx_set (r : Row) :
    ∀ (df : Grid) (i : Nat),
      df.any rowHasSTP = true → df.findIdx rowHasSTP = i →
      (df.set (i + 1) r).any rowHasSTP = true ∧
      (df.set (i + 1) r).findIdx rowHasSTP = i
  | [], i, ha, _ => by simp at ha
  | row :: rest, i, ha, hidx => by
    by_cases h : rowHasSTP row = true
    · have hi : i = 0 := by
        rw [List.findIdx_cons, h, cond_true] at hidx
        omega
      subst hi
      simp [List.set_cons_succ, List.any_cons, List.findIdx_cons, h]
    · rw [Bool.not_eq_true] at h
      rw [List.findIdx_cons, h, cond_false] at hidx
      have harest : rest.any rowHasSTP = true := by
        simpa [List.any_cons, h] using ha
      obtain ⟨k, rfl⟩ : ∃ k, i = k + 1 := ⟨List.findIdx rowHasSTP rest, hidx.symm⟩
      have hk : List.findIdx rowHasSTP rest = k := by omega
      have hrec := any_findIdx_set r rest k harest hk
      constructor
      · simp [List.set_cons_succ, List.any_cons, hrec.1]
      · simp [List.set_cons_succ, List.findIdx_cons, h, hrec.2]

theorem find_stp_row_set (df : Grid) (i : Nat) (r : Row)
    (h : find_stp_row df = some (i + 1)) :
    find_stp_row (df.set (i + 1) r) = some (i + 1) := by
  rw [find_stp_row_eq] at h ⊢
  by_cases ha : df.any rowHasSTP = true
  · rw [if_pos ha] at h
    have hidx : df.findIdx rowHasSTP = i := by
      injection h with h2
      omega
    obtain ⟨h1, h2⟩ := any_findIdx_set r df i ha hidx
    simp [h1, h2]
  · simp [ha] at h

theorem width_set (df : Grid) (i : Nat) (r : Row) :
    width (df.set (i + 1) r) = width df := by
  cases df with
  | nil => rfl
  | cons x xs => simp [width, List.set_cons_succ]

/-! ### Claims about the grid scanner and the anchor offset -/

/-- Claim C5: `find_stp_row` returns one plus the index of the first row
containing a non-NaN cell whose string form contains the case-sensitive
substring `STP`, and `none` when no row does; a row's `STP` test is exactly
the existence of such a cell, and NaN/absent cells are tolerated (ignored)
rather than causing an error. -/
theorem find_stp_row_spec (df : Grid) :
    (find_stp_row df =
      if df.any rowHasSTP then some (df.findIdx rowHasSTP + 1) else none) ∧
    (∀ row : Row, rowHasSTP row = true ↔
      ∃ c ∈ row, c.isna = false ∧
        ∃ u v, c.toStr.toList = u ++ "STP".toList ++ v) ∧
    (∀ row : Row, rowHasSTP (Cell.empty :: row) = rowHasSTP row) := by
  refine ⟨find_stp_row_eq df, ?_, ?_⟩
  · intro row
    simp only [rowHasSTP, List.any_eq_true, Bool.and_eq_true]
    constructor
    · rintro ⟨c, hc, h1, h2⟩
      refine ⟨c, hc, ?_, (strContainsSub_iff c.toStr "STP").mp h2⟩
      simpa [Cell.notna] using h1
    · rintro ⟨c, hc, h1, h2⟩
      exact ⟨c, hc, by simp [Cell.notna, h1],
        (strContainsSub_iff c.toStr "STP").mpr h2⟩
  · intro row
    simp [rowHasSTP, List.any_cons, Cell.notna, Cell.isna]

/-- Claim C5 (witness): in `gridS`, whose row 3 (0-based) holds an
`STP_celkem` cell, the scanner returns the anchor offset 4. -/
theorem find_stp_row_spec_witness : find_stp_row gridS = some 4 := by
  have h := (find_stp_row_spec gridS).1
  rw [h]
  decide

/-- Claim C1 (counterexample): for `gridA` the first `STP` row is at index 0,
so the claim says the first row examined for records is row 1 — which holds
the valid `Polsko` record — yet the parse emits nothing for `Polsko` and
starts with row 2 (`Rusko`): the loop begins at anchor offset + 1, not at
the anchor offset. -/
theorem parse_anchor_claim_cex :
    find_stp_row gridA = some 1 ∧
    lookupD (Cell.str "Polsko") (parse_excel_file "01.2021" gridA) = none ∧
    lookupD (Cell.str "Rusko") (parse_excel_file "01.2021" gridA) =
      some [("01.2021", [("x", ⟨4, 5, 6⟩)])] := by decide

/-- Claim C1 (amended): for every grid whose first `STP` row is at index `i`
(anchor offset `i + 1`), the first row examined for records is row `i + 2`:
the parse equals the row loop run over the rows from index `i + 2` on, in
original order, and the row at index `i + 1` is never examined (replacing
it by anything leaves the result unchanged). -/
theorem parse_first_examined_row (date : String) (df : Grid) (i : Nat)
    (r : Row) (h : find_stp_row df = some (i + 1)) :
    parse_excel_file date df =
      parseRows date ((df.drop (i + 2)).map (selectRow (width df))) none [] ∧
    parse_excel_file date (df.set (i + 1) r) = parse_excel_file date df := by
  have hset := find_stp_row_set df i r h
  constructor
  · unfold parse_excel_file
    rw [h]
  · unfold parse_excel_file
    rw [h, hset, width_set]
    dsimp only
    have hdrop : (df.set (i + 1) r).drop (i + 1 + 1) = df.drop (i + 1 + 1) := by
      rw [List.drop_set]
      simp
    rw [hdrop]

/-- Claim C1 (amended, witness): at `gridA` (first `STP` row at index 0) the
parse runs over the rows from index 2 on. -/
theorem parse_first_examined_row_witness :
    parse_excel_file "01.2021" gridA =
      parseRows "01.2021" ((gridA.drop 2).map (selectRow (width gridA)))
        none [] := by
  have h := parse_first_examined_row "01.2021" gridA 0 [] (by decide)
  exact h.1

/-! ### Sorting lemmas -/

theorem dateLe_trans (a b c : String)
    (h1 : dateLe a b = true) (h2 : dateLe b c = true) : dateLe a c = true := by
  simp only [dateLe, Bool.or_eq_true, Bool.and_eq_true, decide_eq_true_eq]
    at h1 h2 ⊢
  omega

theorem dateLe_total (a b : String) : (dateLe a b || dateLe b a) = true := by
  simp only [dateLe, Bool.or_eq_true, Bool.and_eq_true, decide_eq_true_eq]
  omega

theorem keys_filterMap_sublist {α : Type} (cd : List (String × α)) :
    ∀ l : List String,
      ((l.filterMap fun d => (lookupD d cd).map fun v => (d, v)).map
        Prod.fst).Sublist l
  | [] => List.Sublist.refl []
  | d :: l => by
    cases hl : lookupD d cd with
    | none =>
      simp only [List.filterMap_cons, hl, Option.map_none']
      exact (keys_filterMap_sublist cd l).cons d
    | some v =>
      simp only [List.filterMap_cons, hl, Option.map_some', List.map_cons]
      exact (keys_filterMap_sublist cd l).cons₂ d

/-! ### Claim about emission order -/

/-- Claim C8: in the sorted dataset handed to emission, every country's
period labels are in ascending chronological order: consecutive labels
satisfy the `(year, month)` comparison `dateLe`, which differs from
lexicographic string order (`10.2019` precedes `09.2020` chronologically
but follows it lexicographically). -/
theorem emitted_periods_chronological (pd : FileData) (c : Cell)
    (cd : CountryData) (h : lookupD c (sortData pd) = some cd) :
    List.Chain' (fun p1 p2 => dateLe p1 p2 = true) (cd.map Prod.fst) ∧
    dateLe "09.2020" "10.2019" = false ∧
    lexLtL "09.2020".toList "10.2019".toList = true := by
  refine ⟨?_, by decide, by decide⟩
  have hmap : lookupD c (sortData pd) = (lookupD c pd).map sortCountryData := by
    unfold sortData
    exact lookupD_map_snd sortCountryData c pd
  rw [hmap] at h
  cases hpd : lookupD c pd with
  | none => rw [hpd] at h; simp at h
  | some cd0 =>
    rw [hpd] at h
    obtain rfl : sortCountryData cd0 = cd := by simpa using h
    unfold sortCountryData
    have hpair := @List.sorted_mergeSort String dateLe dateLe_trans
      dateLe_total (cd0.map Prod.fst)
    have hsub := keys_filterMap_sublist cd0
      ((cd0.map Prod.fst).mergeSort dateLe)
    exact (List.Pairwise.sublist hsub hpair).chain'

/-- Claim C8 (witness): the concrete country dict `cdW0` (periods `09.2020`,
`10.2019`, `01.2020` in insertion order) comes out chronologically
ordered. -/
theorem emitted_periods_chronological_witness :
    List.Chain' (fun p1 p2 => dateLe p1 p2 = true)
      ((sortCountryData cdW0).map Prod.fst) ∧
    dateLe "09.2020" "10.2019" = false ∧
    lexLtL "09.2020".toList "10.2019".toList = true :=
  emitted_periods_chronological pdW (Cell.str "Rusko")
    (sortCountryData cdW0) rfl

/-! ### Filename-extractor lemmas -/

theorem stripLit_append : ∀ xs r : List Char, stripLit xs (xs ++ r) = some r
  | [], _ => rfl
  | c :: cs, r => by simp [stripLit, stripLit_append cs r]

theorem dotXlsSearch_append :
    ∀ mid : List Char, '\n' ∉ mid → ∀ r : List Char,
      dotXlsSearch (mid ++ '.' :: 'x' :: 'l' :: 's' :: r) = true
  | [], _, r => by simp [dotXlsSearch, startsWithL]
  | c :: mid, hm, r => by
    have hc : c ≠ '\n' := fun hh => hm (hh ▸ List.mem_cons_self c mid)
    have hrec := dotXlsSearch_append mid
      (fun hh => hm (List.mem_cons_of_mem c hh)) r
    by_cases hs : startsWithL (c :: (mid ++ '.' :: 'x' :: 'l' :: 's' :: r))
        ['.', 'x', 'l', 's'] = true
    · simp [dotXlsSearch, hs]
    · have hc2 : (c == '\n') = false := by simp [hc]
      simp [dotXlsSearch, hs, hc2, hrec]

theorem matchP1At_build (d1 d2 s y1 y2 y3 y4 : Char) (mid tl : List Char)
    (h1 : d1.isDigit = true) (h2 : d2.isDigit = true) (h3 : isSep s = true)
    (h4 : y1.isDigit = true) (h5 : y2.isDigit = true) (h6 : y3.isDigit = true)
    (h7 : y4.isDigit = true) (hmid : '\n' ∉ mid) :
    matchP1At (d1 :: d2 :: s :: y1 :: y2 :: y3 :: y4 ::
        (tabLit ++ mid ++ '.' :: 'x' :: 'l' :: 's' :: tl)) =
      some (String.mk [d1, d2], String.mk [y1, y2, y3, y4]) := by
  have hstrip := stripLit_append tabLit (mid ++ '.' :: 'x' :: 'l' :: 's' :: tl)
  have hdot := dotXlsSearch_append mid hmid tl
  simp [matchP1At, h1, h2, h3, h4, h5, h6, h7, hstrip, hdot]

theorem p1Search_cons_of_match (l : List Char) (r : String × String)
    (h : matchP1At l = some r) : p1Search l = some r := by
  cases l with
  | nil => simp [matchP1At] at h
  | cons c rest => simp [p1Search, h]

theorem p1Search_append_isSome (p l : List Char)
    (h : (p1Search l).isSome = true) : (p1Search (p ++ l)).isSome = true := by
  induction p with
  | nil => simpa using h
  | cons c p ih =>
    rw [List.cons_append]
    cases hm : matchP1At (c :: (p ++ l)) with
    | some r => simp [p1Search, hm]
    | none => simpa [p1Search, hm] using ih

theorem extract_of_p1 (f mm yy : String)
    (h : p1Search f.toList = some (mm, yy)) :
    extract_date_from_filename f = some (mm ++ "." ++ yy) := by
  unfold extract_date_from_filename
  rw [h]

/-! ### Claims about filename date extraction -/

/-- Claim C6: every filename of the pattern-1 shape
`MM<sep>YYYY_TAB_internet_stav_k_<mid>.xls<tail>` (two digits, a separator
from `[-._]`, four digits, the literal, any newline-free `mid`, then
`.xls`, which also covers `.xlsx` via `tail`) yields exactly `MM.YYYY`
with the groups verbatim; `STAV_K_5-3-2021.xlsx` yields `03.2021`
(day discarded, month zero-padded); pattern 1 takes precedence on a
filename matching both; a filename matching neither yields `none`. -/
theorem extract_date_spec (d1 d2 s y1 y2 y3 y4 : Char) (mid tl : List Char)
    (h1 : d1.isDigit = true) (h2 : d2.isDigit = true) (h3 : isSep s = true)
    (h4 : y1.isDigit = true) (h5 : y2.isDigit = true) (h6 : y3.isDigit = true)
    (h7 : y4.isDigit = true) (hmid : '\n' ∉ mid) :
    extract_date_from_filename
        (String.mk (d1 :: d2 :: s :: y1 :: y2 :: y3 :: y4 ::
          (tabLit ++ mid ++ '.' :: 'x' :: 'l' :: 's' :: tl))) =
      some (String.mk [d1, d2] ++ "." ++ String.mk [y1, y2, y3, y4]) ∧
    extract_date_from_filename "STAV_K_5-3-2021.xlsx" = some "03.2021" ∧
    extract_date_from_filename
      "01-2021_TAB_internet_stav_k_STAV_K_9-9-2019.xlsx" = some "01.2021" ∧
    extract_date_from_filename "random_name.xlsx" = none := by
  refine ⟨?_, by decide, by decide, by decide⟩
  apply extract_of_p1
  exact p1Search_cons_of_match _ _
    (matchP1At_build d1 d2 s y1 y2 y3 y4 mid tl h1 h2 h3 h4 h5 h6 h7 hmid)

/-- Claim C6 (witness): the pattern-1 filename
`01-2021_TAB_internet_stav_k_a.xlsx` yields `01.2021`. -/
theorem extract_date_spec_witness :
    extract_date_from_filename "01-2021_TAB_internet_stav_k_a.xlsx" =
      some ("01" ++ "." ++ "2021") := by
  have h := extract_date_spec '0' '1' '-' '2' '0' '2' '1' ['a'] ['x']
    (by decide) (by decide) (by decide) (by decide) (by decide) (by decide)
    (by decide) (by decide)
  exact h.1

/-- Claim C10: filename recognition is a substring search, not a whole-name
match: prefixing a recognized filename with arbitrary characters still
yields a period label (never the "not recognized" signal), and the concrete
example `xx01-2021_TAB_internet_stav_k_a.xlsx` yields `01.2021`. -/
theorem extract_search_not_anchored (p : List Char) :
    (extract_date_from_filename
      (String.mk (p ++ "01-2021_TAB_internet_stav_k_a.xlsx".toList))).isSome
      = true ∧
    extract_date_from_filename "xx01-2021_TAB_internet_stav_k_a.xlsx" =
      some "01.2021" := by
  refine ⟨?_, by decide⟩
  have hsuf : (p1Search "01-2021_TAB_internet_stav_k_a.xlsx".toList).isSome
      = true := by decide
  have h := p1Search_append_isSome p _ hsuf
  unfold extract_date_from_filename
  have hlist : (String.mk
      (p ++ "01-2021_TAB_internet_stav_k_a.xlsx".toList)).toList =
      p ++ "01-2021_TAB_internet_stav_k_a.xlsx".toList := rfl
  rw [hlist]
  cases hp : p1Search (p ++ "01-2021_TAB_internet_stav_k_a.xlsx".toList) with
  | none => rw [hp] at h; simp at h
  | some r => simp [hp]

end Mvcr
